import Mathlib

/-
Verification of the stock-analyst-filter repository (src/fetch_data.py and
src/app.py) against its natural-language specification.

Python values coming from the remote `info` dictionary are modelled as
follows: a key read with `info.get(k)` (no default) is an `Option`, where
`none` covers both an absent key and an explicit `None` value (the two are
indistinguishable to the code); a key read with `info.get(k, d)` is an
`Option (Option α)`: `none` means the key is absent (the default applies),
`some none` means the key is present with value `None` (Python `dict.get`
then returns `None`, NOT the default), and `some (some v)` means the key
holds `v`. Exceptions are modelled by `Except`/`Option` results. Numbers are
modelled as `ℚ`.
-/

/-- Python `dict.get(key, default)` on a field modelled as
`Option (Option α)`: the default is used only when the key is absent;
a key present with an explicit `None` yields `none` (Python `None`). -/
def dictGet {α : Type} (field : Option (Option α)) (default : α) : Option α :=
  match field with
  | none => some default
  | some v => v

/-- Python `str.replace(old, new)` on character lists, for nonempty `old`:
scan left to right, replace every non-overlapping occurrence. The `fuel`
argument (instantiated with the length of the scanned list, which each step
strictly decreases) makes the recursion structural. -/
def pyReplaceFuel (old new : List Char) : Nat → List Char → List Char
  | _, [] => []
  | 0, l => l
  | fuel + 1, c :: rest =>
    if old.isPrefixOf (c :: rest) && !old.isEmpty then
      new ++ pyReplaceFuel old new fuel (rest.drop (old.length - 1))
    else
      c :: pyReplaceFuel old new fuel rest

/-- Python `str.replace(old, new)` for nonempty `old` (the only way the
repository uses it): every occurrence of `old` in `s` is replaced. -/
def pyReplace (s old new : String) : String :=
  String.mk (pyReplaceFuel old.toList new.toList s.toList.length s.toList)

/-- Python `str.endswith(suffix)`. -/
def pyEndsWith (s suffix : String) : Bool :=
  suffix.toList.isSuffixOf s.toList

/-- Banker's rounding of a rational to the nearest integer (ties to even),
the rounding mode of Python's built-in `round`. -/
def roundHalfEven (q : ℚ) : ℤ :=
  if q - q.floor < 1 / 2 then q.floor
  else if q - q.floor > 1 / 2 then q.floor + 1
  else if q.floor % 2 = 0 then q.floor else q.floor + 1

/-- Python `round(q, 2)`: round to 2 decimal places. -/
def round2 (q : ℚ) : ℚ := (roundHalfEven (q * 100) : ℚ) / 100

/-- The first row of `stock.recommendations` (`recs.iloc[0]`), a pandas
Series read with `latest.get(key, 0)`; a present-but-NaN cell is
`some none` (the later `int(...)` conversion then raises). -/
structure RecLatest where
  strongBuy : Option (Option ℤ)
  buy : Option (Option ℤ)
  hold : Option (Option ℤ)
  sell : Option (Option ℤ)
  strongSell : Option (Option ℤ)

/-- The `stock.info` dictionary of one successful `yf.Ticker` call, plus the
`stock.recommendations` attribute. `recs` is `.error ()` when reading the
recommendations table raises (caught by the inner `try`), `.ok none` when it
is `None` or empty, and `.ok (some latest)` for its first row. -/
structure Info where
  currentPrice : Option ℚ
  targetMeanPrice : Option ℚ
  dividendYield : Option (Option ℚ)
  currency : Option (Option String)
  numberOfAnalystOpinions : Option (Option ℚ)
  recommendationKey : Option (Option String)
  sector : Option (Option String)
  trailingPE : Option ℚ
  forwardPE : Option ℚ
  recs : Except Unit (Option RecLatest)

/-- One element of `data_list` in `fetch_analyst_data`: the dictionary
appended for a successful ticker. Fields read with a `get` default are
`Option`-typed because the default does not fire on an explicit `None`. -/
structure Row where
  Ticker : String
  Price : ℚ
  Currency : Option String
  Target_Price : ℚ
  Upside_Potential : ℚ
  Num_Analysts : Option ℚ
  Strong_Buy : ℤ
  Buy : ℤ
  Hold : ℤ
  Sell : ℤ
  Strong_Sell : ℤ
  Rating : Option String
  Sector : Option String
  Trailing_PE : Option ℚ
  Forward_PE : Option ℚ
  Dividend_Yield : ℚ
deriving DecidableEq

/-- The body of the per-attempt `try` in `fetch_analyst_data`, after
`stock.info` has been fetched successfully: build the row appended to
`data_list`, or `none` when no row is appended for this attempt (price or
target missing/zero, i.e. falsy, or one of the `int(...)` count conversions
raises on a `None`/NaN value). -/
def buildRow (current_ticker : String) (info : Info) : Option Row :=
  match info.currentPrice, info.targetMeanPrice with
  | some current_price, some target_mean =>
    if current_price ≠ 0 ∧ target_mean ≠ 0 then
      let div_yield : Option ℚ := dictGet info.dividendYield 0
      let div_yield : ℚ := div_yield.getD 0
      let upside : ℚ := ((target_mean - current_price) / current_price) * 100
      let counts : Option (ℤ × ℤ × ℤ × ℤ × ℤ) :=
        match info.recs with
        | .error _ => some (0, 0, 0, 0, 0)
        | .ok none => some (0, 0, 0, 0, 0)
        | .ok (some latest) =>
          match dictGet latest.strongBuy 0, dictGet latest.buy 0,
              dictGet latest.hold 0, dictGet latest.sell 0,
              dictGet latest.strongSell 0 with
          | some sb, some b, some h, some s, some ss => some (sb, b, h, s, ss)
          | _, _, _, _, _ => none
      match counts with
      | none => none
      | some (strong_buy, buy, hold, sell, strong_sell) =>
        some {
          Ticker := current_ticker
          Price := current_price
          Currency := dictGet info.currency ("USD")
          Target_Price := target_mean
          Upside_Potential := round2 upside
          Num_Analysts := dictGet info.numberOfAnalystOpinions 0
          Strong_Buy := strong_buy
          Buy := buy
          Hold := hold
          Sell := sell
          Strong_Sell := strong_sell
          Rating := dictGet info.recommendationKey ("N/A")
          Sector := dictGet info.sector ("Unknown")
          Trailing_PE := info.trailingPE
          Forward_PE := info.forwardPE
          Dividend_Yield := div_yield }
    else none
  | _, _ => none

/-- The `attempts` list built for one input ticker: the ticker itself, plus
(for a `.TO` ticker) `ticker.replace(".TO", ".NE")`. -/
def attemptsFor (ticker : String) : List String :=
  if pyEndsWith ticker (".TO") then
    [ticker, pyReplace ticker (".TO") (".NE")]
  else
    [ticker]

/-- One attempt of the inner loop: fetch `stock.info` for `current_ticker`
(`.error ()` models an exception, caught by the per-attempt `except`), then
run the row-building body. `none` means the attempt did not succeed. -/
def attemptRow (fetchInfo : String → Except Unit Info) (current_ticker : String) :
    Option Row :=
  match fetchInfo current_ticker with
  | .error _ => none
  | .ok info => buildRow current_ticker info

/-- The inner `for current_ticker in attempts` loop: the row of the first
successful attempt, if any (`success = True` breaks out of the loop). -/
def firstSuccess (fetchInfo : String → Except Unit Info) : List String → Option Row
  | [] => none
  | a :: rest =>
    match attemptRow fetchInfo a with
    | some r => some r
    | none => firstSuccess fetchInfo rest

/-- The symbols for which the inner loop actually contacts the remote
source (`yf.Ticker(current_ticker)` is reached): every attempt up to and
including the first successful one. -/
def attemptedTickers (fetchInfo : String → Except Unit Info) :
    List String → List String
  | [] => []
  | a :: rest =>
    match attemptRow fetchInfo a with
    | some _ => [a]
    | none => a :: attemptedTickers fetchInfo rest

/-- Function `fetch_analyst_data(tickers)`: iterate over the tickers, appending at
most one row per ticker (the first successful attempt); all per-attempt
exceptions are swallowed, so the loop always reaches the next ticker. The
returned dataframe is the list of appended rows, in ticker order. -/
def fetch_analyst_data (fetchInfo : String → Except Unit Info)
    (tickers : List String) : List Row :=
  tickers.filterMap (fun t => firstSuccess fetchInfo (attemptsFor t))

/-- One HTML table parsed by `pd.read_html`: an association list from column
names to the column's cells (`df[col].tolist()`). -/
structure Table where
  cols : List (String × List String)
deriving DecidableEq

/-- The column names of a parsed table (`df.columns`). -/
def Table.columns (t : Table) : List String := t.cols.map Prod.fst

/-- Column access `df[name].tolist()`; `none` models the `KeyError` raised
when the column is missing. -/
def Table.getCol (t : Table) (name : String) : Option (List String) :=
  (t.cols.find? (fun p => p.fst == name)).map Prod.snd

/-- Scraper `get_sp500_tickers()`. The argument models the outcome of
`requests.get` + `pd.read_html` on the S&P 500 page: `.error ()` when the
fetch or parse raises (including `read_html` finding no tables), `.ok ts`
when it yields the table list `ts`. Any exception in the body (including
`tables[0]` on an empty list and the `KeyError` from a missing `Symbol`
column) is caught and turned into `[]`. -/
def get_sp500_tickers (page : Except Unit (List Table)) : List String :=
  match page with
  | .error _ => []
  | .ok tables =>
    match tables.get? 0 with
    | none => []
    | some df =>
      match df.getCol ("Symbol") with
      | none => []
      | some col => col.map (fun t => pyReplace t (".") ("-"))

/-- Scraper `get_nasdaq100_tickers()`: smart search for the first table having a
`Ticker` or `Symbol` column; no such table yields `[]`, as does any
fetch/parse exception. -/
def get_nasdaq100_tickers (page : Except Unit (List Table)) : List String :=
  match page with
  | .error _ => []
  | .ok tables =>
    match tables.find? (fun df =>
        df.columns.contains ("Ticker") || df.columns.contains ("Symbol")) with
    | none => []
    | some target_df =>
      let col := if target_df.columns.contains ("Ticker") then ("Ticker") else ("Symbol")
      match target_df.getCol col with
      | none => []
      | some c => c.map (fun t => pyReplace t (".") ("-"))

/-- Scraper `get_russell1000_tickers()`: same smart search, with the column
preference order `Symbol` then `Ticker`. -/
def get_russell1000_tickers (page : Except Unit (List Table)) : List String :=
  match page with
  | .error _ => []
  | .ok tables =>
    match tables.find? (fun df =>
        df.columns.contains ("Symbol") || df.columns.contains ("Ticker")) with
    | none => []
    | some target_df =>
      let col := if target_df.columns.contains ("Symbol") then ("Symbol") else ("Ticker")
      match target_df.getCol col with
      | none => []
      | some c => c.map (fun t => pyReplace t (".") ("-"))

/-- The cleanup applied to each TSX cell: strip whitespace, turn share-class
dots into dashes, then append the `.TO` suffix when absent. -/
def cleanTsxTicker (ticker : String) : String :=
  let t := ticker.trim
  let t := pyReplace t (".") ("-")
  if pyEndsWith t (".TO") then t else t ++ (".TO")

/-- Scraper `get_tsx_composite_tickers()`: early-return `[]` when fewer than 3
tables were parsed, then read `tables[3]` (the `none` branch is the
`IndexError` this access raises when index 3 is out of bounds, caught by the
blanket `except`), find the first of the possible column names, and clean
each cell. All exceptions yield `[]`. -/
def get_tsx_composite_tickers (page : Except Unit (List Table)) : List String :=
  match page with
  | .error _ => []
  | .ok tables =>
    if tables.length < 3 then []
    else
      match tables.get? 3 with
      | none => []
      | some df =>
        match ([("Ticker"), ("Symbol"), ("Ticker symbol")].find? (fun name =>
            df.columns.contains name)) with
        | none => []
        | some col_name =>
          match df.getCol col_name with
          | none => []
          | some cells => cells.map cleanTsxTicker

/-- Function `get_custom_tickers()`: the fixed hand-curated list. -/
def get_custom_tickers : List String :=
  [("GME"), ("AMC"), ("PLTR"), ("HOOD"), ("COIN"), ("RIVN"), ("SOFI"),
   ("ARKK"), ("SPY"), ("QQQ"), ("IWM"), ("APLD"), ("MARA"), ("CIFR"),
   ("IREN"), ("AEVA"), ("INOD"), ("NBIS")]

/-- Expression `list(set(sp500 + nasdaq + russell + tsx + custom))` of `__main__`: the
deduplicated master universe. The Python `set` is modelled as a `Finset`
(the subsequent `list(...)` order is unspecified). -/
def master_list (sp500 nasdaq russell tsx custom : List String) : Finset String :=
  (sp500 ++ nasdaq ++ russell ++ tsx ++ custom).toFinset

/-- The `pd.read_csv("stock_data.csv")` call of the dashboard, an external
collaborator: the argument is the persisted file (`none` when the file does
not exist, in which case `FileNotFoundError` is raised). -/
inductive ReadErr where
  | fileNotFound
  | otherErr
deriving DecidableEq

/-- Outcome of `pd.read_csv` on the modelled file system state. -/
def pd_read_csv (file : Option (List Row)) : Except ReadErr (List Row) :=
  match file with
  | none => .error .fileNotFound
  | some rows => .ok rows

/-- Function `load_data()` of app.py: try `pd.read_csv`; a `FileNotFoundError` is
caught and turned into `None`; any other exception propagates. -/
def load_data (file : Option (List Row)) : Except ReadErr (Option (List Row)) :=
  match pd_read_csv file with
  | .ok rows => .ok (some rows)
  | .error .fileNotFound => .ok none
  | .error e => .error e

/-- The app's state after the load-and-check prologue of app.py. -/
inductive AppState where
  | errorStop (msg : String)
  | running (df : List Row)
  | crashed (e : ReadErr)
deriving DecidableEq

/-- The top of app.py: `df = load_data()`; `if df is None: st.error(...);
st.stop()`. An uncaught exception would crash the script. -/
def app_start (file : Option (List Row)) : AppState :=
  match load_data file with
  | .error e => .crashed e
  | .ok none => .errorStop ("Data file not found. Please run 'fetch_data.py' first!")
  | .ok (some df) => .running df

/-- NaN-aware `df[col] >= m` of pandas: a missing value (NaN) compares
false. -/
def optGe (v : Option ℚ) (m : ℚ) : Bool :=
  match v with
  | none => false
  | some x => decide (m ≤ x)

/-- The boolean mask of app.py's `filtered_df`: analyst floor, upside floor,
dividend floor, rating `isin`, sector `isin`. -/
def rowPasses (min_analysts min_upside min_div : ℚ)
    (rating_filter selected_sectors : List (Option String)) (r : Row) : Bool :=
  optGe r.Num_Analysts min_analysts &&
  decide (min_upside ≤ r.Upside_Potential) &&
  decide (min_div ≤ r.Dividend_Yield) &&
  rating_filter.contains r.Rating &&
  selected_sectors.contains r.Sector

/-- Mask `filtered_df` of app.py: the rows of the loaded dataframe passing all
five filter conditions. -/
def filtered_df (df : List Row) (min_analysts min_upside min_div : ℚ)
    (rating_filter selected_sectors : List (Option String)) : List Row :=
  df.filter (rowPasses min_analysts min_upside min_div rating_filter selected_sectors)

/-- The four choices of the `Sort By` radio widget. -/
inductive SortCol where
  | upside_potential
  | num_analysts
  | forward_pe
  | trailing_pe
deriving DecidableEq, BEq

/-- Flag `ascending=(sort_col in ["Forward_PE", "Trailing_PE"])`. -/
def sortAscending (sort_col : SortCol) : Bool :=
  [SortCol.forward_pe, SortCol.trailing_pe].contains sort_col

/-- The sort key column of a row (missing P/E values are NaN). -/
def sortKey (sort_col : SortCol) (r : Row) : Option ℚ :=
  match sort_col with
  | .upside_potential => some r.Upside_Potential
  | .num_analysts => r.Num_Analysts
  | .forward_pe => r.Forward_PE
  | .trailing_pe => r.Trailing_PE

/-- The pandas `sort_values` key order: NaN (`none`) is placed last in both
directions (`na_position` defaults to `last`); present values compare by
`≤` when ascending and by `≥` when descending. -/
def pandasLe (ascending : Bool) (a b : Option ℚ) : Bool :=
  match a, b with
  | none, none => true
  | none, some _ => false
  | some _, none => true
  | some x, some y => if ascending then decide (x ≤ y) else decide (y ≤ x)

/-- Line `sorted_df = filtered_df.sort_values(by=sort_col, ascending=...)`. -/
def sorted_df (df : List Row) (sort_col : SortCol) : List Row :=
  df.mergeSort (fun r s =>
    pandasLe (sortAscending sort_col) (sortKey sort_col r) (sortKey sort_col s))

/-- Modelled from the spec: the wording of the claim about the alternate
attempt, namely replacing the final `.TO` suffix (and only it) by `.NE`.
Used solely to compare the spec wording with the code's `str.replace`. -/
def replaceSuffixTO (t : String) : String :=
  String.mk (t.toList.take (t.toList.length - 3) ++ (".NE").toList)

/-- A concrete `stock.info` response used in witnesses: price 4, target 5,
10 analyst opinions, a forward P/E, no recommendations table. -/
def infoX : Info :=
  { currentPrice := some 4
    targetMeanPrice := some 5
    dividendYield := none
    currency := none
    numberOfAnalystOpinions := some (some 10)
    recommendationKey := none
    sector := none
    trailingPE := none
    forwardPE := some 20
    recs := .ok none }

/-- A concrete remote source used in witnesses: only the symbol `AAPL`
resolves; every other symbol raises. -/
def fetchX : String → Except Unit Info :=
  fun s => if s == ("AAPL") then .ok infoX else .error ()

/-- The row `fetch_analyst_data` builds for `AAPL` under `fetchX`. -/
def rowX : Row :=
  { Ticker := "AAPL"
    Price := 4
    Currency := some ("USD")
    Target_Price := 5
    Upside_Potential := 25
    Num_Analysts := some 10
    Strong_Buy := 0
    Buy := 0
    Hold := 0
    Sell := 0
    Strong_Sell := 0
    Rating := some ("N/A")
    Sector := some ("Unknown")
    Trailing_PE := none
    Forward_PE := some 20
    Dividend_Yield := 0 }

/-- A `stock.info` response whose `currency` key is present with an explicit
`None` value (as opposed to absent). -/
def infoCurrencyNull : Info :=
  { currentPrice := some 4
    targetMeanPrice := some 5
    dividendYield := none
    currency := some none
    numberOfAnalystOpinions := none
    recommendationKey := none
    sector := none
    trailingPE := none
    forwardPE := none
    recs := .ok none }

/-- A remote source answering every symbol with `infoCurrencyNull`. -/
def fetchN : String → Except Unit Info := fun _ => .ok infoCurrencyNull

/-- The row built from `infoCurrencyNull`: its `Currency` is null. -/
def rowN : Row :=
  { Ticker := "XYZ"
    Price := 4
    Currency := none
    Target_Price := 5
    Upside_Potential := 25
    Num_Analysts := some 0
    Strong_Buy := 0
    Buy := 0
    Hold := 0
    Sell := 0
    Strong_Sell := 0
    Rating := some ("N/A")
    Sector := some ("Unknown")
    Trailing_PE := none
    Forward_PE := none
    Dividend_Yield := 0 }

/-- A parsed TSX page with exactly three tables, each of which has a
perfectly recognizable `Ticker` column. -/
def threeTables : List Table :=
  [⟨[(("Ticker"), [("AAA")])]⟩, ⟨[(("Ticker"), [("BBB")])]⟩,
   ⟨[(("Ticker"), [("CCC")])]⟩]

/-- A parsed page whose single table has no ticker-like column at all. -/
def noSymbolTables : List Table :=
  [⟨[(("Company"), [("Acme")]), (("Weighting"), [("1.0")])]⟩]

lemma getCol_eq_none {t : Table} {n : String} (h : n ∉ t.columns) :
    t.getCol n = none := by
  have hf : t.cols.find? (fun p => p.fst == n) = none := by
    rw [List.find?_eq_none]
    intro p hp hpn
    exact h (by
      simpa [Table.columns, beq_iff_eq.mp hpn] using List.mem_map_of_mem Prod.fst hp)
  simp [Table.getCol, hf]

lemma firstSuccess_eq_some {f : String → Except Unit Info} {l : List String}
    {r : Row} (h : firstSuccess f l = some r) :
    ∃ a ∈ l, attemptRow f a = some r := by
  induction l with
  | nil => simp [firstSuccess] at h
  | cons a rest ih =>
    rw [firstSuccess] at h
    cases ha : attemptRow f a with
    | some r0 =>
      rw [ha] at h
      exact ⟨a, List.mem_cons_self a rest, by simpa [ha] using h⟩
    | none =>
      rw [ha] at h
      obtain ⟨b, hb, hbr⟩ := ih h
      exact ⟨b, List.mem_cons_of_mem a hb, hbr⟩

lemma mem_fetch_analyst_data {f : String → Except Unit Info}
    {ts : List String} {r : Row} (h : r ∈ fetch_analyst_data f ts) :
    ∃ t ∈ ts, firstSuccess f (attemptsFor t) = some r := by
  simpa [fetch_analyst_data] using List.mem_filterMap.mp h

lemma buildRow_spec {t : String} {info : Info} {r : Row}
    (h : buildRow t info = some r) :
    r.Ticker = t ∧
    ∃ cp tm, info.currentPrice = some cp ∧ info.targetMeanPrice = some tm ∧
      cp ≠ 0 ∧ tm ≠ 0 ∧ r.Price = cp ∧ r.Target_Price = tm ∧
      r.Upside_Potential = round2 ((tm - cp) / cp * 100) ∧
      r.Trailing_PE = info.trailingPE ∧ r.Forward_PE = info.forwardPE ∧
      r.Currency = dictGet info.currency ("USD") ∧
      r.Rating = dictGet info.recommendationKey ("N/A") ∧
      r.Sector = dictGet info.sector ("Unknown") ∧
      r.Num_Analysts = dictGet info.numberOfAnalystOpinions 0 ∧
      r.Dividend_Yield = (dictGet info.dividendYield 0).getD 0 := by
  unfold buildRow at h
  cases hcp : info.currentPrice with
  | none => rw [hcp] at h; exact absurd h (by simp)
  | some cp =>
    cases htm : info.targetMeanPrice with
    | none => rw [hcp, htm] at h; exact absurd h (by simp)
    | some tm =>
      rw [hcp, htm] at h
      simp only at h
      split at h
      · rename_i hnz
        split at h
        · exact absurd h (by simp)
        · rename_i counts hc
          cases h
          refine ⟨rfl, cp, tm, rfl, rfl, hnz.1, hnz.2, ?_⟩
          simp
      · exact absurd h (by simp)

/-- C1: every row stored by `fetch_analyst_data` comes from a fetched info
whose current price and mean target price are both present and non-zero, and
its `Upside_Potential` is `((targetMeanPrice - currentPrice) / currentPrice)
* 100` rounded to 2 decimal places. -/
theorem upside_potential_formula (fetchInfo : String → Except Unit Info)
    (tickers : List String) (r : Row)
    (hr : r ∈ fetch_analyst_data fetchInfo tickers) :
    ∃ info cp tm, fetchInfo r.Ticker = .ok info ∧
      info.currentPrice = some cp ∧ info.targetMeanPrice = some tm ∧
      cp ≠ 0 ∧ tm ≠ 0 ∧ r.Price = cp ∧ r.Target_Price = tm ∧
      r.Upside_Potential = round2 ((tm - cp) / cp * 100) := by
  obtain ⟨t, ht, hfs⟩ := mem_fetch_analyst_data hr
  obtain ⟨a, ha, har⟩ := firstSuccess_eq_some hfs
  unfold attemptRow at har
  cases hf : fetchInfo a with
  | error e => rw [hf] at har; exact absurd har (by simp)
  | ok info =>
    rw [hf] at har
    simp only at har
    obtain ⟨hticker, cp, tm, hcp, htm, hcp0, htm0, hp, htp, hup, _⟩ :=
      buildRow_spec har
    exact ⟨info, cp, tm, by rw [hticker]; exact hf, hcp, htm, hcp0, htm0, hp, htp, hup⟩

/-- Witness for C1 at a concrete input: under `fetchX`, the single ticker
`AAPL` stores the row `rowX`, and the theorem applies to it. -/
theorem upside_potential_formula_witness :
    rowX ∈ fetch_analyst_data fetchX [("AAPL")] ∧
    (∃ info cp tm, fetchX rowX.Ticker = .ok info ∧
      info.currentPrice = some cp ∧ info.targetMeanPrice = some tm ∧
      cp ≠ 0 ∧ tm ≠ 0 ∧ rowX.Price = cp ∧ rowX.Target_Price = tm ∧
      rowX.Upside_Potential = round2 ((tm - cp) / cp * 100)) :=
  ⟨by with_unfolding_all decide,
   upside_potential_formula fetchX [("AAPL")] rowX (by with_unfolding_all decide)⟩

/-- C2 (amended): every ticker is attempted at most twice, first as itself;
a ticker not ending in `.TO` is attempted exactly once; a second attempt
happens only when the ticker ends in `.TO` and the first attempt did not
succeed, and it uses the ticker with every occurrence of `.TO` replaced by
`.NE` (which equals replacing the `.TO` suffix whenever `.TO` occurs only as
the suffix). -/
theorem attempt_count_bound (fetchInfo : String → Except Unit Info)
    (ticker : String) :
    (attemptedTickers fetchInfo (attemptsFor ticker)).length ≤ 2 ∧
    (attemptedTickers fetchInfo (attemptsFor ticker)).head? = some ticker ∧
    (pyEndsWith ticker (".TO") = false →
      attemptedTickers fetchInfo (attemptsFor ticker) = [ticker]) ∧
    (∀ s, attemptedTickers fetchInfo (attemptsFor ticker) = [ticker, s] →
      pyEndsWith ticker (".TO") = true ∧ attemptRow fetchInfo ticker = none ∧
      s = pyReplace ticker (".TO") (".NE")) := by
  cases hE : pyEndsWith ticker (".TO") with
  | false =>
    cases hA : attemptRow fetchInfo ticker <;>
      simp [attemptsFor, hE, attemptedTickers, hA]
  | true =>
    cases hA : attemptRow fetchInfo ticker with
    | some r => simp [attemptsFor, hE, attemptedTickers, hA]
    | none =>
      cases hB : attemptRow fetchInfo (pyReplace ticker (".TO") (".NE")) <;>
        simp [attemptsFor, hE, attemptedTickers, hA, hB]

/-- Witness for C2 at a concrete input: the plain US ticker `MSFT` (which
`fetchX` rejects) is attempted exactly once. -/
theorem attempt_count_bound_witness :
    pyEndsWith ("MSFT") (".TO") = false ∧
    attemptedTickers fetchX (attemptsFor ("MSFT")) = [("MSFT")] :=
  ⟨by decide, (attempt_count_bound fetchX ("MSFT")).2.2.1 (by decide)⟩

/-- Counterexample to C2 as stated: for a ticker containing `.TO` twice,
the second attempt replaces every occurrence (Python `str.replace`), not
just the suffix. -/
theorem attempt_suffix_cx :
    attemptedTickers (fun _ => .error ()) (attemptsFor ("A.TOB.TO")) =
      [("A.TOB.TO"), ("A.NEB.NE")] ∧
    pyReplace ("A.TOB.TO") (".TO") (".NE") ≠ replaceSuffixTO ("A.TOB.TO") ∧
    replaceSuffixTO ("A.TOB.TO") = ("A.TOB.NE") := by
  refine ⟨?_, by decide, by decide⟩
  with_unfolding_all decide

lemma length_fetch_eq_countP (fetchInfo : String → Except Unit Info)
    (ts : List String) :
    (fetch_analyst_data fetchInfo ts).length =
      ts.countP (fun u => (firstSuccess fetchInfo (attemptsFor u)).isSome) := by
  induction ts with
  | nil => rfl
  | cons t rest ih =>
    simp only [fetch_analyst_data] at ih
    cases h : firstSuccess fetchInfo (attemptsFor t) <;>
      simp [fetch_analyst_data, List.filterMap_cons, h, List.countP_cons, ih]

/-- C3: a total failure on one ticker leaves the output for the remaining
tickers unchanged (the loop proceeds); a success contributes exactly one
row; and in general the dataframe has exactly one row per ticker for which
some attempt succeeded and none for the others. -/
theorem per_ticker_failure_isolation (fetchInfo : String → Except Unit Info)
    (t : String) (ts : List String) :
    (firstSuccess fetchInfo (attemptsFor t) = none →
      fetch_analyst_data fetchInfo (t :: ts) = fetch_analyst_data fetchInfo ts) ∧
    (∀ r, firstSuccess fetchInfo (attemptsFor t) = some r →
      fetch_analyst_data fetchInfo (t :: ts) = r :: fetch_analyst_data fetchInfo ts) ∧
    (fetch_analyst_data fetchInfo ts).length =
      ts.countP (fun u => (firstSuccess fetchInfo (attemptsFor u)).isSome) := by
  refine ⟨?_, ?_, length_fetch_eq_countP fetchInfo ts⟩
  · intro h
    simp [fetch_analyst_data, List.filterMap_cons, h]
  · intro r h
    simp [fetch_analyst_data, List.filterMap_cons, h]

/-- Witness for C3 at a concrete input: every attempt for `SHOP.TO` raises
under `fetchX`, yet `AAPL` after it is still processed and produces its
row. -/
theorem per_ticker_failure_isolation_witness :
    firstSuccess fetchX (attemptsFor ("SHOP.TO")) = none ∧
    fetch_analyst_data fetchX [("SHOP.TO"), ("AAPL")] =
      fetch_analyst_data fetchX [("AAPL")] :=
  ⟨by with_unfolding_all decide,
   (per_ticker_failure_isolation fetchX ("SHOP.TO") [("AAPL")]).1
     (by with_unfolding_all decide)⟩

/-- C4: the master-list deduplication equals the set union of the five
source lists, is idempotent (deduplicating its own listed-out output changes
nothing), and is order-independent (any permutation of the concatenation
yields the same set). -/
theorem master_list_dedup (l1 l2 l3 l4 l5 : List String) :
    master_list l1 l2 l3 l4 l5 =
      l1.toFinset ∪ l2.toFinset ∪ l3.toFinset ∪ l4.toFinset ∪ l5.toFinset ∧
    (master_list l1 l2 l3 l4 l5).toList.toFinset = master_list l1 l2 l3 l4 l5 ∧
    (∀ l' : List String, l'.Perm (l1 ++ l2 ++ l3 ++ l4 ++ l5) →
      l'.toFinset = master_list l1 l2 l3 l4 l5) := by
  refine ⟨?_, Finset.toList_toFinset _, ?_⟩
  · simp [master_list, List.toFinset_append, Finset.union_assoc]
  · intro l' h
    rw [List.toFinset_eq_of_perm _ _ h]
    simp [master_list, List.toFinset_append, Finset.union_assoc]

/-- Witness for C4 at a concrete input: two overlapping lists plus the real
custom list, and a reordered concatenation. -/
theorem master_list_dedup_witness :
    ([("AMC"), ("GME"), ("AAPL")] : List String).Perm
      (([("AAPL")] ++ [("GME")] ++ [] ++ [] ++ [("AMC")])) ∧
    ([("AMC"), ("GME"), ("AAPL")] : List String).toFinset =
      master_list [("AAPL")] [("GME")] [] [] [("AMC")] :=
  ⟨by decide,
   (master_list_dedup [("AAPL")] [("GME")] [] [] [("AMC")]).2.2
     [("AMC"), ("GME"), ("AAPL")] (by decide)⟩

/-- C7: when the persisted CSV does not exist, `load_data` catches the
`FileNotFoundError` and returns `None`, and the app shows the error message
and stops rather than crashing on an exception. -/
theorem missing_file_clean_stop :
    load_data none = .ok none ∧
    app_start none =
      .errorStop ("Data file not found. Please run 'fetch_data.py' first!") :=
  ⟨rfl, rfl⟩

lemma optGe_mono {v : Option ℚ} {a a' : ℚ} (ha : a ≤ a')
    (h : optGe v a' = true) : optGe v a = true := by
  cases v with
  | none => simp [optGe] at h
  | some x =>
    simp only [optGe, decide_eq_true_eq] at h ⊢
    exact le_trans ha h

lemma rowPasses_mono {a a' u u' d d' : ℚ}
    {ratings sectors : List (Option String)}
    (ha : a ≤ a') (hu : u ≤ u') (hd : d ≤ d') (r : Row)
    (h : rowPasses a' u' d' ratings sectors r = true) :
    rowPasses a u d ratings sectors r = true := by
  simp only [rowPasses, Bool.and_eq_true, decide_eq_true_eq] at h ⊢
  obtain ⟨⟨⟨⟨hA, hU⟩, hD⟩, hR⟩, hS⟩ := h
  exact ⟨⟨⟨⟨optGe_mono ha hA, le_trans hu hU⟩, le_trans hd hD⟩, hR⟩, hS⟩

/-- C5: with the dataframe and the other controls fixed, raising the
minimum-analysts floor, the minimum-upside floor, or the minimum-dividend
floor shrinks the filtered result to a sublist of the previous one, so the
row count never increases. -/
theorem filter_floors_monotone (df : List Row)
    (ratings sectors : List (Option String)) (a a' u u' d d' : ℚ) :
    (a ≤ a' →
      (filtered_df df a' u d ratings sectors).Sublist
        (filtered_df df a u d ratings sectors) ∧
      (filtered_df df a' u d ratings sectors).length ≤
        (filtered_df df a u d ratings sectors).length) ∧
    (u ≤ u' →
      (filtered_df df a u' d ratings sectors).Sublist
        (filtered_df df a u d ratings sectors) ∧
      (filtered_df df a u' d ratings sectors).length ≤
        (filtered_df df a u d ratings sectors).length) ∧
    (d ≤ d' →
      (filtered_df df a u d' ratings sectors).Sublist
        (filtered_df df a u d ratings sectors) ∧
      (filtered_df df a u d' ratings sectors).length ≤
        (filtered_df df a u d ratings sectors).length) := by
  refine ⟨fun ha => ?_, fun hu => ?_, fun hd => ?_⟩ <;>
    refine ⟨List.monotone_filter_right df (fun r hr => ?_), ?_⟩
  · exact rowPasses_mono ha le_rfl le_rfl r hr
  · exact (List.monotone_filter_right df
      (fun r hr => rowPasses_mono ha le_rfl le_rfl r hr)).length_le
  · exact rowPasses_mono le_rfl hu le_rfl r hr
  · exact (List.monotone_filter_right df
      (fun r hr => rowPasses_mono le_rfl hu le_rfl r hr)).length_le
  · exact rowPasses_mono le_rfl le_rfl hd r hr
  · exact (List.monotone_filter_right df
      (fun r hr => rowPasses_mono le_rfl le_rfl hd r hr)).length_le

/-- Witness for C5 at a concrete input: raising the analyst floor from 0 to
20 drops `rowX` (10 analysts) from the result. -/
theorem filter_floors_monotone_witness :
    (0 : ℚ) ≤ 20 ∧
    ((filtered_df [rowX] 20 0 0 [some ("N/A")] [some ("Unknown")]).Sublist
      (filtered_df [rowX] 0 0 0 [some ("N/A")] [some ("Unknown")]) ∧
    (filtered_df [rowX] 20 0 0 [some ("N/A")] [some ("Unknown")]).length ≤
      (filtered_df [rowX] 0 0 0 [some ("N/A")] [some ("Unknown")]).length) :=
  ⟨by decide,
   (filter_floors_monotone [rowX] [some ("N/A")] [some ("Unknown")]
      0 20 0 0 0 0).1 (by decide)⟩

lemma pandasLe_trans (asc : Bool) (a b c : Option ℚ)
    (h1 : pandasLe asc a b = true) (h2 : pandasLe asc b c = true) :
    pandasLe asc a c = true := by
  cases a <;> cases b <;> cases c <;> cases asc <;>
    simp_all [pandasLe] <;>
    first
      | exact le_trans h2 h1
      | exact le_trans h1 h2

lemma pandasLe_total (asc : Bool) (a b : Option ℚ) :
    (pandasLe asc a b || pandasLe asc b a) = true := by
  cases a <;> cases b <;> cases asc <;>
    simp [pandasLe] <;>
    exact le_total _ _

/-- C6: the sort-direction flip of app.py — `Upside_Potential` sorts
descending (highest upside first) while `Forward_PE` and `Trailing_PE` sort
ascending (lowest P/E first, with missing P/E values last as in pandas). -/
theorem sort_direction_flip (df : List Row) :
    sortAscending SortCol.upside_potential = false ∧
    sortAscending SortCol.forward_pe = true ∧
    sortAscending SortCol.trailing_pe = true ∧
    (sorted_df df SortCol.upside_potential).Pairwise
      (fun r s => s.Upside_Potential ≤ r.Upside_Potential) ∧
    (sorted_df df SortCol.forward_pe).Pairwise
      (fun r s => pandasLe true r.Forward_PE s.Forward_PE = true) ∧
    (sorted_df df SortCol.trailing_pe).Pairwise
      (fun r s => pandasLe true r.Trailing_PE s.Trailing_PE = true) ∧
    (sorted_df df SortCol.upside_potential).Perm df ∧
    (sorted_df df SortCol.forward_pe).Perm df ∧
    (sorted_df df SortCol.trailing_pe).Perm df := by
  have hsorted : ∀ c : SortCol, (sorted_df df c).Pairwise (fun r s =>
      pandasLe (sortAscending c) (sortKey c r) (sortKey c s) = true) := by
    intro c
    exact @List.sorted_mergeSort Row
      (fun r s => pandasLe (sortAscending c) (sortKey c r) (sortKey c s))
      (fun x y z hxy hyz => pandasLe_trans (sortAscending c) _ _ _ hxy hyz)
      (fun x y => pandasLe_total (sortAscending c) _ _)
      df
  refine ⟨rfl, rfl, rfl, ?_, ?_, ?_, List.mergeSort_perm df _,
    List.mergeSort_perm df _, List.mergeSort_perm df _⟩
  · refine (hsorted SortCol.upside_potential).imp (fun h => ?_)
    simpa [pandasLe, sortAscending, sortKey] using h
  · exact (hsorted SortCol.forward_pe).imp (fun h => h)
  · exact (hsorted SortCol.trailing_pe).imp (fun h => h)

lemma find_table_none {tables : List Table} {names : List String}
    (h : ∀ t ∈ tables, ∀ n ∈ names, n ∉ t.columns)
    (p : Table → Bool)
    (hp : ∀ t, p t = true → ∃ n ∈ names, n ∈ t.columns) :
    tables.find? p = none := by
  rw [List.find?_eq_none]
  intro t ht hpt
  obtain ⟨n, hn, hnc⟩ := hp t hpt
  exact h t ht n hn hnc

/-- C8: each of the four scrapers returns the empty list — instead of
raising or aborting — when its page fetch or parse raises, and likewise when
no parsed table carries a column this scraper recognizes as a
ticker/symbol column. -/
theorem scrapers_swallow_failures (tables : List Table) :
    get_sp500_tickers (.error ()) = [] ∧
    get_nasdaq100_tickers (.error ()) = [] ∧
    get_russell1000_tickers (.error ()) = [] ∧
    get_tsx_composite_tickers (.error ()) = [] ∧
    ((∀ t ∈ tables, ("Symbol" : String) ∉ t.columns) →
      get_sp500_tickers (.ok tables) = []) ∧
    ((∀ t ∈ tables, ("Ticker" : String) ∉ t.columns ∧
        ("Symbol" : String) ∉ t.columns) →
      get_nasdaq100_tickers (.ok tables) = [] ∧
      get_russell1000_tickers (.ok tables) = []) ∧
    ((∀ t ∈ tables, ("Ticker" : String) ∉ t.columns ∧
        ("Symbol" : String) ∉ t.columns ∧
        ("Ticker symbol" : String) ∉ t.columns) →
      get_tsx_composite_tickers (.ok tables) = []) := by
  refine ⟨rfl, rfl, rfl, rfl, ?_, ?_, ?_⟩
  · intro h
    cases tables with
    | nil => rfl
    | cons df rest =>
      have hcol : df.getCol ("Symbol") = none :=
        getCol_eq_none (h df (List.mem_cons_self df rest))
      simp [get_sp500_tickers, hcol]
  · intro h
    constructor
    · have hfind : tables.find? (fun df =>
          df.columns.contains ("Ticker") || df.columns.contains ("Symbol")) = none := by
        rw [List.find?_eq_none]
        intro t ht hpt
        rcases Bool.or_eq_true_iff.mp hpt with hc | hc
        · exact (h t ht).1 (by simpa using hc)
        · exact (h t ht).2 (by simpa using hc)
      simp only [get_nasdaq100_tickers]
      rw [hfind]
    · have hfind : tables.find? (fun df =>
          df.columns.contains ("Symbol") || df.columns.contains ("Ticker")) = none := by
        rw [List.find?_eq_none]
        intro t ht hpt
        rcases Bool.or_eq_true_iff.mp hpt with hc | hc
        · exact (h t ht).2 (by simpa using hc)
        · exact (h t ht).1 (by simpa using hc)
      simp only [get_russell1000_tickers]
      rw [hfind]
  · intro h
    simp only [get_tsx_composite_tickers]
    by_cases hlen : tables.length < 3
    · rw [if_pos hlen]
    · rw [if_neg hlen]
      cases hget : tables.get? 3 with
      | none => rfl
      | some df =>
        have hdf : df ∈ tables := by
          rw [List.get?_eq_getElem?] at hget
          exact List.getElem?_mem hget
        have hfind : ([("Ticker"), ("Symbol"), ("Ticker symbol")].find? (fun name =>
            df.columns.contains name)) = none := by
          rw [List.find?_eq_none]
          intro n hn hc
          have hmem : n ∈ df.columns := by simpa using hc
          obtain ⟨h1, h2, h3⟩ := h df hdf
          fin_cases hn
          · exact h1 hmem
          · exact h2 hmem
          · exact h3 hmem
        dsimp only
        rw [hfind]

/-- Witness for C8 at a concrete input: a parsed page whose only table has
columns `Company` and `Weighting` makes all four scrapers return `[]`. -/
theorem scrapers_swallow_failures_witness :
    (∀ t ∈ noSymbolTables, ("Symbol" : String) ∉ t.columns) ∧
    get_sp500_tickers (.ok noSymbolTables) = [] :=
  ⟨by decide,
   (scrapers_swallow_failures noSymbolTables).2.2.2.2.1 (by decide)⟩

/-- Counterexample to C9 as stated: a fetched info whose `currency` key is
present with an explicit null produces a row whose `Currency` attribute is
null, so the P/E columns are not the only nullable attributes. -/
theorem row_nullable_cx :
    rowN ∈ fetch_analyst_data fetchN [("XYZ")] ∧ rowN.Currency = none := by
  constructor
  · with_unfolding_all decide
  · rfl

/-- C9 (amended): `Dividend_Yield` is always a number — a missing or `None`
`dividendYield` is replaced by 0 before the row is built — and `Trailing_PE`
and `Forward_PE` are stored exactly as returned and may be null; but they
are not the only nullable attributes: `Currency`, `Rating`, `Sector` and
`Num_Analysts` are also null whenever the source supplies an explicit null
for their key (their `get` defaults apply only to an absent key). -/
theorem row_nullable_fields (t : String) (info : Info) (r : Row)
    (h : buildRow t info = some r) :
    r.Dividend_Yield = (dictGet info.dividendYield 0).getD 0 ∧
    r.Trailing_PE = info.trailingPE ∧
    r.Forward_PE = info.forwardPE ∧
    r.Currency = dictGet info.currency ("USD") ∧
    r.Rating = dictGet info.recommendationKey ("N/A") ∧
    r.Sector = dictGet info.sector ("Unknown") ∧
    r.Num_Analysts = dictGet info.numberOfAnalystOpinions 0 := by
  obtain ⟨-, cp, tm, -, -, -, -, -, -, -, htr, hfw, hcy, hrt, hsec, hna, hdy⟩ :=
    buildRow_spec h
  exact ⟨hdy, htr, hfw, hcy, hrt, hsec, hna⟩

/-- Witness for C9 at a concrete input: the row built from `infoX`. -/
theorem row_nullable_fields_witness :
    buildRow ("AAPL") infoX = some rowX ∧
    (rowX.Dividend_Yield = (dictGet infoX.dividendYield 0).getD 0 ∧
    rowX.Trailing_PE = infoX.trailingPE ∧
    rowX.Forward_PE = infoX.forwardPE ∧
    rowX.Currency = dictGet infoX.currency ("USD") ∧
    rowX.Rating = dictGet infoX.recommendationKey ("N/A") ∧
    rowX.Sector = dictGet infoX.sector ("Unknown") ∧
    rowX.Num_Analysts = dictGet infoX.numberOfAnalystOpinions 0) :=
  ⟨by with_unfolding_all decide,
   row_nullable_fields ("AAPL") infoX rowX (by with_unfolding_all decide)⟩

/-- C10: the early-return guard of `get_tsx_composite_tickers` does NOT
suffice to keep `tables[3]` in bounds — with exactly 3 parsed tables the
guard does not fire, yet index 3 is out of bounds, so `tables[3]` raises an
`IndexError` that only the blanket `except` turns into `[]`. -/
theorem tsx_guard_off_by_one :
    ¬(threeTables.length < 3) ∧
    threeTables.get? 3 = none ∧
    get_tsx_composite_tickers (.ok threeTables) = [] := by decide
